import Mathlib

/-!
Shallow embedding of the SQLite persistence layer in `src/database.py`
(Telegram bot-factory state store), together with proofs of the spec's
claims about it.

Modelling conventions:
* Each SQLite table is a Lean list of row structures, kept in insertion
  (rowid) order; `AUTOINCREMENT` surrogate keys are modelled by explicit
  `next_*` counters in the state.
* `datetime.now().isoformat()` timestamps are modelled as `Nat` clock
  values passed in explicitly (ISO-8601 strings from a monotone clock
  compare lexicographically exactly as the clock values compare).
* 64-bit platform ids are modelled as `Int`; SQLite integer columns
  (`active`, `banned`, counters) as `Int`.
* `ORDER BY created_at DESC` is embedded twice: as a deterministic,
  executable refinement (`sortByCreatedDesc`, a stable sort on the table
  order), and as the relational SQL semantics (`DescByTs` permutations),
  which leaves the order of rows with equal `created_at` unspecified.
-/

namespace BotFactory

/-- Row of the `members` table. -/
structure MemberRow where
  user_id : Int
  first_name : String
  username : Option String
  joined_at : Nat
  bots_created : Int
  deriving DecidableEq, Repr

/-- Row of the `bots` table. -/
structure BotRow where
  id : Nat
  token : String
  bot_username : String
  bot_type : String
  owner_id : Int
  created_at : Nat
  active : Int
  required_channel : Option String
  users_count : Int
  deriving DecidableEq, Repr

/-- Row of the `bot_users` table. -/
structure BotUserRow where
  id : Nat
  bot_token : String
  user_id : Int
  first_name : String
  username : Option String
  joined_at : Nat
  banned : Int
  deriving DecidableEq, Repr

/-- Row of the `fake_subs` table. -/
structure FakeSubRow where
  bot_token : String
  enabled : Int
  message : Option String
  updated_at : Nat
  deriving DecidableEq, Repr

/-- Row of the `remember` table (AI memory entries). -/
structure MemRow where
  id : Nat
  bot_token : String
  user_id : Int
  role : String
  content : String
  created_at : Nat
  deriving DecidableEq, Repr

/-- Row of the `adhkar_schedules` table. -/
structure AdhkarRow where
  id : Nat
  bot_token : String
  chat_id : Int
  interval_minutes : Int
  end_time : Option Nat
  created_at : Nat
  deriving DecidableEq, Repr

/-- Row of the `guard_data` table. -/
structure GuardDataRow where
  bot_token : String
  chat_id : Int
  admin_id : Int
  kick_count : Int
  deriving DecidableEq, Repr

/-- Row of the `guard_settings` table. -/
structure GuardSettingRow where
  bot_token : String
  chat_id : Int
  kick_limit : Int
  deriving DecidableEq, Repr

/-- The whole database state: the tables created by `init_database`,
plus the `AUTOINCREMENT` counters for the surrogate keys. -/
structure DB where
  members : List MemberRow
  bots : List BotRow
  bot_users : List BotUserRow
  fake_subs : List FakeSubRow
  remember : List MemRow
  adhkar_schedules : List AdhkarRow
  guard_data : List GuardDataRow
  guard_settings : List GuardSettingRow
  next_bot_id : Nat
  next_bot_user_id : Nat
  next_mem_id : Nat
  next_adhkar_id : Nat
  deriving DecidableEq, Repr

/-- The freshly initialized database: all tables empty. -/
def DB.empty : DB :=
  ⟨[], [], [], [], [], [], [], [], 1, 1, 1, 1⟩

/-! ### Members (`add_member`, `get_member`, `increment_bots_created`) -/

/-- `get_member`: `SELECT * FROM members WHERE user_id = ?`. -/
def get_member (db : DB) (user_id : Int) : Option MemberRow :=
  db.members.find? (fun r => r.user_id == user_id)

/-- `add_member`: `INSERT OR REPLACE INTO members ... VALUES (?,?,?,?,
COALESCE((SELECT bots_created FROM members WHERE user_id = ?), 0))`.
The replaced row keeps its `bots_created` via the subselect. -/
def add_member (db : DB) (user_id : Int) (first_name : String)
    (username : Option String) (now : Nat) : DB :=
  let bc : Int := ((db.members.find? (fun r => r.user_id == user_id)).map
    (fun r => r.bots_created)).getD 0
  { db with members := db.members.filter (fun r => !(r.user_id == user_id)) ++
      [⟨user_id, first_name, username, now, bc⟩] }

/-- `increment_bots_created`: `UPDATE members SET bots_created =
bots_created + 1 WHERE user_id = ?`. -/
def increment_bots_created (db : DB) (user_id : Int) : DB :=
  { db with members := db.members.map (fun r =>
      if r.user_id == user_id then { r with bots_created := r.bots_created + 1 } else r) }

/-! ### Bots (`add_bot`, `toggle_bot_active`, `delete_bot`) -/

/-- `add_bot`: plain `INSERT INTO bots`; the UNIQUE constraint on `token`
makes a duplicate raise `IntegrityError`, which the function catches and
turns into `False`; on success it returns `True`.  New rows get the
column defaults `active = 1` and `users_count = 0`. -/
def add_bot (db : DB) (token bot_username bot_type : String) (owner_id : Int)
    (required_channel : Option String) (now : Nat) : Bool × DB :=
  if db.bots.any (fun b => b.token == token) then
    (false, db)
  else
    (true, { db with
      bots := db.bots ++
        [⟨db.next_bot_id, token, bot_username, bot_type, owner_id, now, 1,
          required_channel, 0⟩],
      next_bot_id := db.next_bot_id + 1 })

/-- `toggle_bot_active`: `UPDATE bots SET active = NOT active WHERE token
= ?`, returning `rowcount > 0`.  SQLite `NOT x` is `1` when `x = 0` and
`0` otherwise. -/
def toggle_bot_active (db : DB) (token : String) : Bool × DB :=
  (db.bots.any (fun b => b.token == token),
   { db with bots := db.bots.map (fun b =>
       if b.token == token then
         { b with active := if b.active = 0 then 1 else 0 }
       else b) })

/-- `delete_bot`: deletes from `bots`, `bot_users`, `fake_subs` and
`remember` all rows carrying the given token; no other table is
touched. -/
def delete_bot (db : DB) (token : String) : DB :=
  { db with
    bots := db.bots.filter (fun b => !(b.token == token)),
    bot_users := db.bot_users.filter (fun r => !(r.bot_token == token)),
    fake_subs := db.fake_subs.filter (fun r => !(r.bot_token == token)),
    remember := db.remember.filter (fun r => !(r.bot_token == token)) }

/-! ### Bot users (`add_bot_user`, `ban_bot_user`, `unban_bot_user`) -/

/-- The recount performed by `add_bot_user`: `SELECT COUNT(*) FROM
bot_users WHERE bot_token = ? AND banned = 0`. -/
def non_banned_count (db : DB) (bot_token : String) : Int :=
  Int.ofNat (db.bot_users.filter
    (fun r => r.bot_token == bot_token && r.banned == 0)).length

/-- First statement (and commit) of `add_bot_user`: `INSERT OR IGNORE
INTO bot_users` — the UNIQUE `(bot_token, user_id)` pair makes a
duplicate a silent no-op. -/
def add_bot_user_insert (db : DB) (bot_token : String) (user_id : Int)
    (first_name : String) (username : Option String) (now : Nat) : DB :=
  if db.bot_users.any (fun r => r.bot_token == bot_token && r.user_id == user_id) then
    db
  else
    { db with
      bot_users := db.bot_users ++
        [⟨db.next_bot_user_id, bot_token, user_id, first_name, username, now, 0⟩],
      next_bot_user_id := db.next_bot_user_id + 1 }

/-- `add_bot_user`: the idempotent insert, then the recount of
non-banned users of the token, written into `bots.users_count`. -/
def add_bot_user (db : DB) (bot_token : String) (user_id : Int)
    (first_name : String) (username : Option String) (now : Nat) : DB :=
  let db1 := add_bot_user_insert db bot_token user_id first_name username now
  let c := non_banned_count db1 bot_token
  { db1 with bots := db1.bots.map (fun b =>
      if b.token == bot_token then { b with users_count := c } else b) }

/-- `ban_bot_user`: `UPDATE bot_users SET banned = 1 WHERE bot_token = ?
AND user_id = ?`. -/
def ban_bot_user (db : DB) (bot_token : String) (user_id : Int) : DB :=
  { db with bot_users := db.bot_users.map (fun r =>
      if r.bot_token == bot_token && r.user_id == user_id then
        { r with banned := 1 }
      else r) }

/-- `unban_bot_user`: `UPDATE bot_users SET banned = 0 WHERE bot_token =
? AND user_id = ?`. -/
def unban_bot_user (db : DB) (bot_token : String) (user_id : Int) : DB :=
  { db with bot_users := db.bot_users.map (fun r =>
      if r.bot_token == bot_token && r.user_id == user_id then
        { r with banned := 0 }
      else r) }

/-! ### Guard counters (`get_guard_kick_count`, `increment_guard_kick`,
`reset_guard_kicks`) -/

/-- `get_guard_kick_count`: `SELECT kick_count FROM guard_data WHERE
...`; `0` when the row is absent. -/
def get_guard_kick_count (db : DB) (bot_token : String) (chat_id admin_id : Int) : Int :=
  match db.guard_data.find? (fun r =>
      r.bot_token == bot_token && r.chat_id == chat_id && r.admin_id == admin_id) with
  | some r => r.kick_count
  | none => 0

/-- The upsert statement of `increment_guard_kick`: `INSERT ... VALUES
(?,?,?,1) ON CONFLICT DO UPDATE SET kick_count = kick_count + 1`. -/
def increment_guard_upsert (db : DB) (bot_token : String) (chat_id admin_id : Int) : DB :=
  if db.guard_data.any (fun r =>
      r.bot_token == bot_token && r.chat_id == chat_id && r.admin_id == admin_id) then
    { db with guard_data := db.guard_data.map (fun r =>
        if r.bot_token == bot_token && r.chat_id == chat_id && r.admin_id == admin_id then
          { r with kick_count := r.kick_count + 1 }
        else r) }
  else
    { db with guard_data := db.guard_data ++ [⟨bot_token, chat_id, admin_id, 1⟩] }

/-- `increment_guard_kick`: the atomic upsert-increment, followed by a
re-read of the row whose `kick_count` is returned (the `else 1`
fallback of the source is dead: after the upsert the row exists). -/
def increment_guard_kick (db : DB) (bot_token : String) (chat_id admin_id : Int) :
    Int × DB :=
  let db1 := increment_guard_upsert db bot_token chat_id admin_id
  let ret :=
    match db1.guard_data.find? (fun r =>
        r.bot_token == bot_token && r.chat_id == chat_id && r.admin_id == admin_id) with
    | some r => r.kick_count
    | none => 1
  (ret, db1)

/-- `reset_guard_kicks`: `DELETE FROM guard_data WHERE ...`. -/
def reset_guard_kicks (db : DB) (bot_token : String) (chat_id admin_id : Int) : DB :=
  { db with guard_data := db.guard_data.filter (fun r =>
      !(r.bot_token == bot_token && r.chat_id == chat_id && r.admin_id == admin_id)) }

/-! ### AI memory (`add_memory`, `get_memory`, `clear_memory`)

Both the prune subquery of `add_memory` and the fetch of `get_memory`
use `ORDER BY created_at DESC` with no further sort key.  The
deterministic embedding below (`sortByCreatedDesc`) refines that to a
stable sort on the table scan order; the relational embedding
(`DescByTs` / `GetMemoryRel` / `AddMemoryRel`) captures exactly what the
SQL guarantees: some permutation that is non-increasing in
`created_at`. -/

/-- The `(bot_token, user_id)` partition of the `remember` table, in
table (insertion) order. -/
def memory_rows (db : DB) (bot_token : String) (user_id : Int) : List MemRow :=
  db.remember.filter (fun r => r.bot_token == bot_token && r.user_id == user_id)

/-- The comparison of `ORDER BY created_at DESC`. -/
def byCreatedDesc : MemRow → MemRow → Prop := fun a b => b.created_at ≤ a.created_at

instance : DecidableRel byCreatedDesc := fun a b => Nat.decLe b.created_at a.created_at

instance : IsTotal MemRow byCreatedDesc :=
  ⟨fun a b => Nat.le_total b.created_at a.created_at⟩

instance : IsTrans MemRow byCreatedDesc :=
  ⟨fun _ _ _ h₁ h₂ => Nat.le_trans h₂ h₁⟩

/-- Deterministic refinement of `ORDER BY created_at DESC`: a stable
sort of the rows in table order. -/
def sortByCreatedDesc (l : List MemRow) : List MemRow :=
  l.insertionSort byCreatedDesc

/-- `add_memory`: `INSERT INTO remember`, then
`DELETE FROM remember WHERE bot_token = ? AND user_id = ? AND id NOT IN
(SELECT id FROM remember WHERE bot_token = ? AND user_id = ?
 ORDER BY created_at DESC LIMIT 20)`. -/
def add_memory (db : DB) (bot_token : String) (user_id : Int)
    (role content : String) (now : Nat) : DB :=
  let inserted := db.remember ++
    [⟨db.next_mem_id, bot_token, user_id, role, content, now⟩]
  let keep := ((sortByCreatedDesc (inserted.filter
      (fun r => r.bot_token == bot_token && r.user_id == user_id))).take 20).map
    (fun r => r.id)
  { db with
    remember := inserted.filter (fun r =>
      !(r.bot_token == bot_token && r.user_id == user_id) || keep.contains r.id),
    next_mem_id := db.next_mem_id + 1 }

/-- `get_memory`: `SELECT role, content FROM remember WHERE bot_token = ?
AND user_id = ? ORDER BY created_at DESC LIMIT ?`, then the Python side
reverses the fetched rows before building the `{role, content}` list. -/
def get_memory (db : DB) (bot_token : String) (user_id : Int) (limit : Nat) :
    List (String × String) :=
  (((sortByCreatedDesc (memory_rows db bot_token user_id)).take limit).reverse).map
    (fun r => (r.role, r.content))

/-- `clear_memory`: the source guards on Python truthiness (`if
user_id:`), so the per-partition branch runs only when `user_id` is
present *and* nonzero; `user_id = 0` falls into the whole-bot branch
exactly like `user_id = None`. -/
def clear_memory (db : DB) (bot_token : String) (user_id : Option Int) : DB :=
  match user_id with
  | some u =>
      if u ≠ 0 then
        { db with remember := db.remember.filter (fun r =>
            !(r.bot_token == bot_token && r.user_id == u)) }
      else
        { db with remember := db.remember.filter (fun r => !(r.bot_token == bot_token)) }
  | none =>
      { db with remember := db.remember.filter (fun r => !(r.bot_token == bot_token)) }

/-- Rows in an order admissible for `ORDER BY created_at DESC`:
non-increasing `created_at`; ties are unconstrained, exactly as in the
SQL semantics. -/
def DescByTs (l : List MemRow) : Prop :=
  l.Pairwise (fun a b => b.created_at ≤ a.created_at)

instance (l : List MemRow) : Decidable (DescByTs l) :=
  inferInstanceAs (Decidable (l.Pairwise (fun a b : MemRow => b.created_at ≤ a.created_at)))

/-- Relational semantics of the `get_memory` fetch: some admissible
ordering of the partition, truncated, reversed and projected. -/
def GetMemoryRel (db : DB) (bot_token : String) (user_id : Int) (limit : Nat)
    (out : List (String × String)) : Prop :=
  ∃ s, s.Perm (memory_rows db bot_token user_id) ∧ DescByTs s ∧
    out = ((s.take limit).reverse).map (fun r => (r.role, r.content))

/-- Relational semantics of `add_memory`: the prune subquery may pick
its 20 ids from any admissible ordering of the post-insert partition. -/
def AddMemoryRel (db : DB) (bot_token : String) (user_id : Int)
    (role content : String) (now : Nat) (db' : DB) : Prop :=
  ∃ s,
    s.Perm ((db.remember ++
      [(⟨db.next_mem_id, bot_token, user_id, role, content, now⟩ : MemRow)]).filter
      (fun r => r.bot_token == bot_token && r.user_id == user_id)) ∧
    DescByTs s ∧
    db' = { db with
      remember := (db.remember ++
          [(⟨db.next_mem_id, bot_token, user_id, role, content, now⟩ : MemRow)]).filter
        (fun r =>
          !(r.bot_token == bot_token && r.user_id == user_id) ||
            ((s.take 20).map (fun r => r.id)).contains r.id),
      next_mem_id := db.next_mem_id + 1 }

/-- `append_all`: fold `add_memory` over a list of `(role, content,
timestamp)` messages for one `(bot_token, user_id)` pair. -/
def append_all (db : DB) (bot_token : String) (user_id : Int)
    (msgs : List (String × String × Nat)) : DB :=
  msgs.foldl (fun d m => add_memory d bot_token user_id m.1 m.2.1 m.2.2) db

/-! ### General helper lemmas -/

/-- Mapping a function that fixes every member of a list is the
identity on that list. -/
lemma map_id_of_mem {α : Type} (l : List α) (f : α → α) (h : ∀ a ∈ l, f a = a) :
    l.map f = l := by
  rw [List.map_congr_left (g := id) h, List.map_id]

/-- `find?` commutes with a map whose function does not change the
truth of the predicate. -/
lemma find?_map_pred {α : Type} (f : α → α) (p : α → Bool)
    (hp : ∀ a, p (f a) = p a) (l : List α) :
    (l.map f).find? p = (l.find? p).map f := by
  induction l with
  | nil => rfl
  | cons a t ih =>
    by_cases h : p a = true
    · rw [List.map_cons, List.find?_cons_of_pos _ (by rw [hp]; exact h),
        List.find?_cons_of_pos _ h, Option.map_some']
    · rw [List.map_cons, List.find?_cons_of_neg _ (by rw [hp]; exact h),
        List.find?_cons_of_neg _ h, ih]

/-- `find?` skips a prefix in which it finds nothing. -/
lemma find?_append_none {α : Type} (p : α → Bool) (l₁ l₂ : List α)
    (h : l₁.find? p = none) : (l₁ ++ l₂).find? p = l₂.find? p := by
  rw [List.find?_append, h, Option.none_or]

/-! ### Claim theorems: bots -/

/-- Claim C4: when some bot with the given token already exists,
`add_bot` returns false and leaves the whole database state (the
existing bot row included) unmodified.  The source catches the
`IntegrityError` of the UNIQUE token constraint and returns `False`
instead of raising. -/
theorem add_bot_duplicate_token (db : DB) (token bot_username bot_type : String)
    (owner_id : Int) (required_channel : Option String) (now : Nat)
    (h : ∃ b ∈ db.bots, b.token = token) :
    add_bot db token bot_username bot_type owner_id required_channel now = (false, db) := by
  obtain ⟨b, hb, hbt⟩ := h
  rw [add_bot, if_pos]
  exact List.any_eq_true.mpr ⟨b, hb, by simp [hbt]⟩

/-- A concrete bot row used by several witness states. -/
def sample_bot : BotRow := ⟨1, "t", "bu", "ai", 9, 0, 1, none, 0⟩

/-- A concrete state holding exactly one bot, with token `"t"`. -/
def one_bot_db : DB := { DB.empty with bots := [sample_bot], next_bot_id := 2 }

/-- Witness for C4: a concrete state holding a bot with token `"t"`. -/
theorem add_bot_duplicate_token_witness :
    add_bot one_bot_db "t" "x" "ai" 5 none 3 = (false, one_bot_db) :=
  add_bot_duplicate_token one_bot_db "t" "x" "ai" 5 none 3
    ⟨sample_bot, by simp [one_bot_db], rfl⟩

/-- Claim C6: `delete_bot` removes the bot row and cascades — after the
call, no `bots`, `bot_users`, `fake_subs` or `remember` row carrying the
deleted token remains. -/
theorem delete_bot_cascade (db : DB) (token : String) :
    (delete_bot db token).bots.filter (fun b => b.token == token) = [] ∧
    (delete_bot db token).bot_users.filter (fun r => r.bot_token == token) = [] ∧
    (delete_bot db token).fake_subs.filter (fun r => r.bot_token == token) = [] ∧
    (delete_bot db token).remember.filter (fun r => r.bot_token == token) = [] := by
  refine ⟨?_, ?_, ?_, ?_⟩ <;>
    simp [delete_bot, List.filter_filter, List.filter_eq_nil_iff]

/-- Claim C9: `delete_bot` does not touch the `adhkar_schedules`,
`guard_data` or `guard_settings` tables: schedules and guard state of a
deleted bot persist. -/
theorem delete_bot_leaves_schedules_and_guard (db : DB) (token : String) :
    (delete_bot db token).adhkar_schedules = db.adhkar_schedules ∧
    (delete_bot db token).guard_data = db.guard_data ∧
    (delete_bot db token).guard_settings = db.guard_settings :=
  ⟨rfl, rfl, rfl⟩

/-- Applying the `active = NOT active` row update of `toggle_bot_active`
twice restores a bot list in which every row of the token has `active ∈
{0, 1}`. -/
lemma toggle_map_twice (bots : List BotRow) (token : String)
    (h01 : ∀ b ∈ bots, b.token = token → b.active = 0 ∨ b.active = 1) :
    List.map (fun b : BotRow => if b.token == token then { b with active := if b.active = 0 then 1 else 0 } else b) (List.map (fun b : BotRow => if b.token == token then { b with active := if b.active = 0 then 1 else 0 } else b) bots) = bots := by
  rw [List.map_map]
  apply map_id_of_mem
  intro b hb
  have h01b := h01 b hb
  obtain ⟨bid, btok, bu, bt, ow, ca, act, rc, uc⟩ := b
  by_cases h : btok = token
  · rcases h01b h with h0 | h0 <;> simp_all [Function.comp]
  · simp [Function.comp, h]

/-- Claim C10: on a state whose rows for the token have `active ∈ {0,1}`
(all reachable states do), toggling twice restores the state exactly and
both calls return true when the token is present; on an absent token the
call returns false and changes nothing. -/
theorem toggle_bot_active_round_trip (db : DB) (token : String)
    (h01 : ∀ b ∈ db.bots, b.token = token → b.active = 0 ∨ b.active = 1) :
    (toggle_bot_active (toggle_bot_active db token).2 token).2 = db ∧
    ((∃ b ∈ db.bots, b.token = token) →
      (toggle_bot_active db token).1 = true ∧
      (toggle_bot_active (toggle_bot_active db token).2 token).1 = true) ∧
    ((∀ b ∈ db.bots, b.token ≠ token) →
      (toggle_bot_active db token).1 = false ∧ (toggle_bot_active db token).2 = db) := by
  refine ⟨?_, ?_, ?_⟩
  · show { db with bots := List.map (fun b : BotRow => if b.token == token then { b with active := if b.active = 0 then 1 else 0 } else b) (List.map (fun b : BotRow => if b.token == token then { b with active := if b.active = 0 then 1 else 0 } else b) db.bots) } = db
    rw [toggle_map_twice db.bots token h01]
  · rintro ⟨b, hb, hbt⟩
    constructor
    · exact List.any_eq_true.mpr ⟨b, hb, by simp [hbt]⟩
    · show (List.map (fun b : BotRow => if b.token == token then { b with active := if b.active = 0 then 1 else 0 } else b) db.bots).any (fun b => b.token == token) = true
      refine List.any_eq_true.mpr
        ⟨(fun b : BotRow => if b.token == token then
            { b with active := if b.active = 0 then 1 else 0 } else b) b,
          List.mem_map.mpr ⟨b, hb, rfl⟩, ?_⟩
      simp [hbt]
  · intro habs
    constructor
    · exact List.any_eq_false.mpr (fun b hb => by simp [habs b hb])
    · show { db with bots := List.map (fun b : BotRow => if b.token == token then { b with active := if b.active = 0 then 1 else 0 } else b) db.bots } = db
      rw [map_id_of_mem db.bots _ (fun b hb => by simp [habs b hb])]

/-- Witness for C10: a concrete one-bot state with `active = 1`. -/
theorem toggle_bot_active_round_trip_witness :
    (toggle_bot_active (toggle_bot_active one_bot_db "t").2 "t").2 = one_bot_db :=
  (toggle_bot_active_round_trip one_bot_db "t" (by decide)).1

/-! ### Claim theorems: bot users -/

/-- Every bot row of the token carries exactly the count written by the
`UPDATE bots SET users_count = ?` of `add_bot_user`. -/
lemma users_count_after_recount (l : List BotRow) (t : String) (c : Int) (b : BotRow)
    (hb : b ∈ l.map (fun x => if x.token == t then { x with users_count := c } else x))
    (hbt : b.token = t) :
    b.users_count = c := by
  rw [List.mem_map] at hb
  obtain ⟨a, ha, rfl⟩ := hb
  by_cases h : a.token = t
  · simp [h]
  · simp [h] at hbt

/-- Claim C2: after every `add_bot_user` call — duplicate pairs being a
silent no-op on `bot_users` — the bot row of the token stores exactly
the number of its non-banned `bot_users` rows; `ban_bot_user` and
`unban_bot_user` leave the `bots` table (hence `users_count`)
untouched. -/
theorem add_bot_user_count_consistency (db : DB) (bot_token : String) (user_id : Int)
    (first_name : String) (username : Option String) (now : Nat) :
    (∀ b ∈ (add_bot_user db bot_token user_id first_name username now).bots,
      b.token = bot_token →
      b.users_count = non_banned_count (add_bot_user db bot_token user_id first_name username now) bot_token) ∧
    ((∃ r ∈ db.bot_users, r.bot_token = bot_token ∧ r.user_id = user_id) →
      (add_bot_user db bot_token user_id first_name username now).bot_users = db.bot_users) ∧
    (ban_bot_user db bot_token user_id).bots = db.bots ∧
    (unban_bot_user db bot_token user_id).bots = db.bots := by
  refine ⟨?_, ?_, rfl, rfl⟩
  · intro b hb hbt
    have hbots : (add_bot_user db bot_token user_id first_name username now).bots
        = (add_bot_user_insert db bot_token user_id first_name username now).bots.map
          (fun x => if x.token == bot_token then
            { x with users_count :=
                non_banned_count (add_bot_user_insert db bot_token user_id first_name username now) bot_token }
          else x) := rfl
    have hcnt : non_banned_count (add_bot_user db bot_token user_id first_name username now) bot_token
        = non_banned_count (add_bot_user_insert db bot_token user_id first_name username now) bot_token := rfl
    rw [hbots] at hb
    rw [hcnt]
    exact users_count_after_recount _ bot_token _ b hb hbt
  · rintro ⟨r, hr, h1, h2⟩
    have hany : (db.bot_users.any
        (fun r => r.bot_token == bot_token && r.user_id == user_id)) = true :=
      List.any_eq_true.mpr ⟨r, hr, by simp [h1, h2]⟩
    show (add_bot_user_insert db bot_token user_id first_name username now).bot_users
      = db.bot_users
    unfold add_bot_user_insert
    rw [if_pos hany]

/-- A concrete bot-user row, member of `c2db`. -/
def c2_user : BotUserRow := ⟨1, "t", 5, "u", none, 0, 0⟩

/-- A concrete state with one bot and one bot user. -/
def c2db : DB :=
  { DB.empty with
      bots := [sample_bot]
      bot_users := [c2_user]
      next_bot_id := 2
      next_bot_user_id := 2 }

/-- Witness for C2: adding a duplicate `(bot_token, user_id)` pair on a
one-bot, one-user state leaves the `bot_users` rows unchanged. -/
theorem add_bot_user_count_consistency_witness :
    (add_bot_user c2db "t" 5 "u2" none 7).bot_users = c2db.bot_users :=
  (add_bot_user_count_consistency c2db "t" 5 "u2" none 7).2.1
    ⟨c2_user, by decide, by decide, by decide⟩

/-! ### Claim theorems: guard counters -/

/-- The conditional `kick_count + 1` bump of `increment_guard_kick`
does not change whether a row matches the key predicate. -/
lemma guard_bump_pred (bot_token : String) (chat_id admin_id : Int) :
    ∀ r : GuardDataRow,
      ((fun s : GuardDataRow =>
          s.bot_token == bot_token && s.chat_id == chat_id && s.admin_id == admin_id)
        ((fun s : GuardDataRow =>
          if s.bot_token == bot_token && s.chat_id == chat_id && s.admin_id == admin_id then
            { s with kick_count := s.kick_count + 1 }
          else s) r))
      = ((fun s : GuardDataRow =>
          s.bot_token == bot_token && s.chat_id == chat_id && s.admin_id == admin_id) r) := by
  intro r
  dsimp only
  by_cases h : (r.bot_token == bot_token && r.chat_id == chat_id && r.admin_id == admin_id) = true
  · rw [if_pos h]
  · rw [if_neg h]

/-- After `increment_guard_kick`, the key's row is found and is the
bumped (or freshly inserted) row. -/
lemma find?_increment_guard_kick (db : DB) (bot_token : String) (chat_id admin_id : Int) :
    (increment_guard_kick db bot_token chat_id admin_id).2.guard_data.find?
        (fun r => r.bot_token == bot_token && r.chat_id == chat_id && r.admin_id == admin_id)
      = some (match db.guard_data.find?
            (fun r => r.bot_token == bot_token && r.chat_id == chat_id && r.admin_id == admin_id) with
          | some r => { r with kick_count := r.kick_count + 1 }
          | none => ⟨bot_token, chat_id, admin_id, 1⟩) := by
  have h2 : (increment_guard_kick db bot_token chat_id admin_id).2
      = increment_guard_upsert db bot_token chat_id admin_id := rfl
  rw [h2]
  by_cases hany : (db.guard_data.any
      (fun r => r.bot_token == bot_token && r.chat_id == chat_id && r.admin_id == admin_id)) = true
  · obtain ⟨r0, hr0⟩ := Option.isSome_iff_exists.mp
      (List.find?_isSome.mpr (List.any_eq_true.mp hany))
    unfold increment_guard_upsert
    rw [if_pos hany]
    dsimp only
    rw [find?_map_pred _ _ (guard_bump_pred bot_token chat_id admin_id), hr0]
    have hp := List.find?_some hr0
    rw [Option.map_some']
    dsimp only
    rw [if_pos hp]
  · have hnone : db.guard_data.find?
        (fun r => r.bot_token == bot_token && r.chat_id == chat_id && r.admin_id == admin_id) = none :=
      List.find?_eq_none.mpr (fun a ha hpa =>
        hany (List.any_eq_true.mpr ⟨a, ha, hpa⟩))
    unfold increment_guard_upsert
    rw [if_neg hany]
    dsimp only
    rw [find?_append_none _ _ _ hnone, hnone]
    simp [List.find?]

/-- The value returned by `increment_guard_kick` is re-read from the
stored row (fallback 1 when absent, which never fires). -/
lemma increment_guard_kick_ret (db : DB) (bot_token : String) (chat_id admin_id : Int) :
    (increment_guard_kick db bot_token chat_id admin_id).1
      = match (increment_guard_kick db bot_token chat_id admin_id).2.guard_data.find?
            (fun r => r.bot_token == bot_token && r.chat_id == chat_id && r.admin_id == admin_id) with
        | some r => r.kick_count
        | none => 1 := rfl

/-- Claim C5: `increment_guard_kick` stores 1 when the key's row was
absent and otherwise bumps the stored count by exactly one, returns the
post-increment stored value, and `reset_guard_kicks` makes a later
`get_guard_kick_count` read 0. -/
theorem increment_guard_kick_spec (db : DB) (bot_token : String) (chat_id admin_id : Int) :
    get_guard_kick_count (increment_guard_kick db bot_token chat_id admin_id).2 bot_token chat_id admin_id
      = get_guard_kick_count db bot_token chat_id admin_id + 1 ∧
    (increment_guard_kick db bot_token chat_id admin_id).1
      = get_guard_kick_count (increment_guard_kick db bot_token chat_id admin_id).2 bot_token chat_id admin_id ∧
    ((∀ r ∈ db.guard_data, ¬(r.bot_token = bot_token ∧ r.chat_id = chat_id ∧ r.admin_id = admin_id)) →
      get_guard_kick_count db bot_token chat_id admin_id = 0 ∧
      get_guard_kick_count (increment_guard_kick db bot_token chat_id admin_id).2 bot_token chat_id admin_id = 1) ∧
    get_guard_kick_count (reset_guard_kicks db bot_token chat_id admin_id) bot_token chat_id admin_id = 0 := by
  have hfind := find?_increment_guard_kick db bot_token chat_id admin_id
  refine ⟨?_, ?_, ?_, ?_⟩
  · cases hfd : db.guard_data.find?
        (fun r => r.bot_token == bot_token && r.chat_id == chat_id && r.admin_id == admin_id) with
    | none => rw [hfd] at hfind; simp [get_guard_kick_count, hfind, hfd]
    | some r0 => rw [hfd] at hfind; simp [get_guard_kick_count, hfind, hfd]
  · rw [increment_guard_kick_ret, hfind]
    simp [get_guard_kick_count, hfind]
  · intro habs
    have hnone : db.guard_data.find?
        (fun r => r.bot_token == bot_token && r.chat_id == chat_id && r.admin_id == admin_id) = none :=
      List.find?_eq_none.mpr (fun a ha hpa => habs a ha (by
        simp only [Bool.and_eq_true, beq_iff_eq] at hpa
        exact ⟨hpa.1.1, hpa.1.2, hpa.2⟩))
    rw [hnone] at hfind
    constructor
    · simp [get_guard_kick_count, hnone]
    · simp [get_guard_kick_count, hfind]
  · have hnone : (reset_guard_kicks db bot_token chat_id admin_id).guard_data.find?
        (fun r => r.bot_token == bot_token && r.chat_id == chat_id && r.admin_id == admin_id) = none := by
      apply List.find?_eq_none.mpr
      intro a ha hpa
      rw [show (reset_guard_kicks db bot_token chat_id admin_id).guard_data
          = db.guard_data.filter (fun r =>
            !(r.bot_token == bot_token && r.chat_id == chat_id && r.admin_id == admin_id)) from rfl,
        List.mem_filter] at ha
      rw [hpa] at ha
      simp at ha
    simp [get_guard_kick_count, hnone]

/-- Witness for C5: incrementing on the empty store yields a stored
count of 1. -/
theorem increment_guard_kick_spec_witness :
    get_guard_kick_count DB.empty "t" 1 2 = 0 ∧
    get_guard_kick_count (increment_guard_kick DB.empty "t" 1 2).2 "t" 1 2 = 1 :=
  (increment_guard_kick_spec DB.empty "t" 1 2).2.2.1 (by decide)

/-! ### Claim theorems: members -/

/-- The row stored by `add_member`: identity fields replaced, the
`bots_created` counter read back through the `COALESCE` subselect. -/
lemma get_member_add_member (db : DB) (uid : Int) (fn : String)
    (un : Option String) (t : Nat) :
    get_member (add_member db uid fn un t) uid =
      some ⟨uid, fn, un, t,
        ((get_member db uid).map (fun r => r.bots_created)).getD 0⟩ := by
  show (db.members.filter (fun r => !(r.user_id == uid)) ++
      [(⟨uid, fn, un, t,
        ((db.members.find? (fun r => r.user_id == uid)).map (fun r => r.bots_created)).getD 0⟩ :
        MemberRow)]).find? (fun r => r.user_id == uid) = _
  rw [find?_append_none]
  · rw [List.find?_cons_of_pos _ (by simp)]
    rfl
  · apply List.find?_eq_none.mpr
    intro a ha hpa
    rw [List.mem_filter] at ha
    rw [hpa] at ha
    simp at ha

/-- `increment_bots_created` bumps exactly the found member row. -/
lemma get_member_increment (db : DB) (uid : Int) :
    get_member (increment_bots_created db uid) uid
      = (get_member db uid).map
          (fun r => { r with bots_created := r.bots_created + 1 }) := by
  have hg : get_member db uid = db.members.find? (fun r => r.user_id == uid) := rfl
  show (db.members.map _).find? _ = _
  rw [find?_map_pred _ _ ?hp, hg]
  case hp =>
    intro a
    dsimp only
    by_cases h : (a.user_id == uid) = true
    · rw [if_pos h]
    · rw [if_neg h]
  cases hfd : db.members.find? (fun r => r.user_id == uid) with
  | none => rfl
  | some r =>
    have hp2 := List.find?_some hfd
    simp only [Option.map_some']
    rw [if_pos hp2]

/-- Claim C3: `add_member` preserves the stored `bots_created` counter
across re-upserts — starting from a state without the member, upsert,
one `increment_bots_created`, and a second upsert leave the counter at
1, not reset to 0. -/
theorem member_counter_preserved (db : DB) (user_id : Int)
    (fn1 fn2 : String) (un1 un2 : Option String) (t1 t2 : Nat)
    (h : get_member db user_id = none) :
    (get_member (add_member (increment_bots_created
          (add_member db user_id fn1 un1 t1) user_id) user_id fn2 un2 t2) user_id).map
        (fun r => r.bots_created)
      = some 1 := by
  have l1 := get_member_add_member db user_id fn1 un1 t1
  rw [h] at l1
  simp only [Option.map_none', Option.getD_none] at l1
  have l2 := get_member_increment (add_member db user_id fn1 un1 t1) user_id
  rw [l1] at l2
  simp only [Option.map_some'] at l2
  have l3 := get_member_add_member
    (increment_bots_created (add_member db user_id fn1 un1 t1) user_id) user_id fn2 un2 t2
  rw [l2] at l3
  rw [l3]
  simp

/-- Witness for C3: the scenario run from the empty store for user 5. -/
theorem member_counter_preserved_witness :
    (get_member (add_member (increment_bots_created
          (add_member DB.empty 5 "a" none 1) 5) 5 "b" none 2) 5).map
        (fun r => r.bots_created)
      = some 1 :=
  member_counter_preserved DB.empty 5 "a" "b" none none 1 2 (by decide)

/-! ### Claim theorems: clearing memory -/

/-- A concrete state with one memory row for user 5 of bot `"t"`. -/
def c8db : DB :=
  { DB.empty with
      remember := [⟨1, "t", 5, "user", "hello", 1⟩]
      next_mem_id := 2 }

/-- Counterexample to C8: `clear_memory` with the explicitly given
`user_id = 0` does not delete just the `("t", 0)` partition — the
Python truthiness guard `if user_id:` sends 0 into the whole-bot
branch, so the row of user 5 is deleted as well. -/
theorem clear_memory_zero_cex :
    (clear_memory c8db "t" (some 0)).remember
      ≠ c8db.remember.filter (fun r => !(r.bot_token == "t" && r.user_id == 0)) := by
  decide

/-- Claim C8 (amended): for every *nonzero* given `user_id`,
`clear_memory` deletes exactly that `(bot_token, user_id)` partition,
leaving every other row (other users of the bot, other bots) unchanged;
with `user_id = 0` or no `user_id` it clears the entire bot's
memory. -/
theorem clear_memory_partition_amended (db : DB) (bot_token : String) (user_id : Int)
    (h : user_id ≠ 0) :
    (clear_memory db bot_token (some user_id)).remember
        = db.remember.filter (fun r => !(r.bot_token == bot_token && r.user_id == user_id)) ∧
    (clear_memory db bot_token (some 0)).remember
        = db.remember.filter (fun r => !(r.bot_token == bot_token)) ∧
    (clear_memory db bot_token none).remember
        = db.remember.filter (fun r => !(r.bot_token == bot_token)) := by
  refine ⟨?_, ?_, rfl⟩
  · simp [clear_memory, h]
  · simp [clear_memory]

/-- Witness for C8 (amended): clearing user 5 of `c8db` removes exactly
its single row. -/
theorem clear_memory_partition_amended_witness :
    (clear_memory c8db "t" (some 5)).remember
      = c8db.remember.filter (fun r => !(r.bot_token == "t" && r.user_id == 5)) :=
  (clear_memory_partition_amended c8db "t" 5 (by decide)).1

/-! ### Retention-window helpers -/

/-- The last `n` elements of a list (the "most recent n" in table
order). -/
def lastN (n : Nat) (l : List α) : List α := l.drop (l.length - n)

lemma lastN_eq_reverse_take {α : Type} (n : Nat) (l : List α) :
    lastN n l = (l.reverse.take n).reverse := by
  rw [List.take_reverse, List.reverse_reverse]
  rfl

lemma lastN_reverse_eq {α : Type} (n : Nat) (l : List α) :
    (lastN n l).reverse = l.reverse.take n := by
  rw [lastN_eq_reverse_take, List.reverse_reverse]

lemma length_lastN {α : Type} (n : Nat) (l : List α) :
    (lastN n l).length = l.length - (l.length - n) := by
  simp [lastN]

/-- Truncating to the last `n`, appending new elements, and truncating
again is the same as truncating the full log once. -/
lemma lastN_append_lastN {α : Type} (n : Nat) (x y : List α) :
    lastN n (lastN n x ++ y) = lastN n (x ++ y) := by
  rw [lastN_eq_reverse_take, lastN_eq_reverse_take (l := x ++ y)]
  rw [List.reverse_append, List.reverse_append, lastN_reverse_eq]
  suffices h : (y.reverse ++ List.take n x.reverse).take n
      = (y.reverse ++ x.reverse).take n by rw [h]
  rw [List.take_append_eq_append_take, List.take_append_eq_append_take, List.take_take]
  rw [Nat.min_eq_left (Nat.sub_le n _)]

/-- On a list with strictly increasing ids, keeping exactly the rows
whose id occurs in the dropped-prefix suffix returns that suffix. -/
lemma filter_mem_ids_drop (l : List MemRow) (k : Nat) (ids : List Nat)
    (hids : ∀ x, ids.contains x = true ↔ x ∈ (l.drop k).map (fun r => r.id))
    (hl : l.Pairwise (fun a b => a.id < b.id)) :
    l.filter (fun r => ids.contains r.id) = l.drop k := by
  have hl' : (l.take k ++ l.drop k).Pairwise (fun a b => a.id < b.id) := by
    rw [List.take_append_drop]; exact hl
  have hcross := (List.pairwise_append.mp hl').2.2
  have h1 : (l.take k).filter (fun r => ids.contains r.id) = [] := by
    apply List.filter_eq_nil_iff.mpr
    intro a ha hc
    obtain ⟨b, hb, hbid⟩ := List.mem_map.mp ((hids a.id).mp hc)
    have := hcross a ha b hb
    omega
  have h2 : (l.drop k).filter (fun r => ids.contains r.id) = l.drop k :=
    List.filter_eq_self.mpr (fun a ha => (hids a.id).mpr (List.mem_map.mpr ⟨a, ha, rfl⟩))
  calc l.filter (fun r => ids.contains r.id)
      = (l.take k ++ l.drop k).filter (fun r => ids.contains r.id) := by
        rw [List.take_append_drop]
    _ = [] ++ l.drop k := by rw [List.filter_append, h1, h2]
    _ = l.drop k := by simp

/-! ### Claim theorems: memory ordering and ties -/

/-- Two permutations of the same rows, both admissible for
`ORDER BY created_at DESC`, coincide when no two rows share a
`created_at` value: with distinct keys, non-strict descending order is
strict descending order, which determines the list. -/
lemma desc_sorted_nodup_eq (l₁ l₂ : List MemRow) (p : l₁.Perm l₂)
    (nod : (l₁.map (fun r => r.created_at)).Nodup)
    (s₁ : DescByTs l₁) (s₂ : DescByTs l₂) : l₁ = l₂ := by
  have anti : IsAntisymm MemRow (fun a b => b.created_at < a.created_at) :=
    ⟨fun a b h₁ h₂ => absurd (Nat.lt_trans h₁ h₂) (Nat.lt_irrefl _)⟩
  have nod₂ : (l₂.map (fun r => r.created_at)).Nodup := (p.map _).nodup nod
  have hne₁ : l₁.Pairwise (fun a b => a.created_at ≠ b.created_at) :=
    List.pairwise_map.mp nod
  have hne₂ : l₂.Pairwise (fun a b => a.created_at ≠ b.created_at) :=
    List.pairwise_map.mp nod₂
  refine List.eq_of_perm_of_sorted (r := fun a b => b.created_at < a.created_at) p ?_ ?_
  · exact (s₁.and hne₁).imp (fun h => Nat.lt_of_le_of_ne h.1 (Ne.symm h.2))
  · exact (s₂.and hne₂).imp (fun h => Nat.lt_of_le_of_ne h.1 (Ne.symm h.2))

/-- Two memory rows of bot `"t"`, user 7, written at the same
instant. -/
def c7r1 : MemRow := ⟨1, "t", 7, "user", "a", 5⟩

/-- The second same-instant row. -/
def c7r2 : MemRow := ⟨2, "t", 7, "assistant", "b", 5⟩

/-- A state whose `("t", 7)` memory partition has two rows with equal
`created_at`. -/
def c7db : DB := { DB.empty with remember := [c7r1, c7r2], next_mem_id := 3 }

/-- Counterexample to C7: with two rows of identical `created_at`, both
orders of the tied rows are admissible executions of the
`ORDER BY created_at DESC` fetch of `get_memory`, and with `limit = 1`
they return different results — the query result is not determined by a
`(created_at, id)` total order, and is not deterministic. -/
theorem memory_tie_nondeterministic_cex :
    GetMemoryRel c7db "t" 7 1 [("user", "a")] ∧
    GetMemoryRel c7db "t" 7 1 [("assistant", "b")] ∧
    ([("user", "a")] : List (String × String)) ≠ [("assistant", "b")] := by
  refine ⟨⟨[c7r1, c7r2], by decide, by decide, by decide⟩,
    ⟨[c7r2, c7r1], by decide, by decide, by decide⟩, by decide⟩

/-- Claim C7 (amended): the prune and read queries order by
`created_at` alone, so when the relevant partition's `created_at`
values are pairwise distinct the read result and the pruned state are
uniquely determined; with tied timestamps they are not (see the
counterexample). -/
theorem memory_tie_break_amended (db : DB) (bot_token : String) (user_id : Int) :
    (∀ (limit : Nat) (out₁ out₂ : List (String × String)),
      ((memory_rows db bot_token user_id).map (fun r => r.created_at)).Nodup →
      GetMemoryRel db bot_token user_id limit out₁ →
      GetMemoryRel db bot_token user_id limit out₂ → out₁ = out₂) ∧
    (∀ (role content : String) (now : Nat) (d₁ d₂ : DB),
      (((db.remember ++
          [(⟨db.next_mem_id, bot_token, user_id, role, content, now⟩ : MemRow)]).filter
            (fun r => r.bot_token == bot_token && r.user_id == user_id)).map
          (fun r => r.created_at)).Nodup →
      AddMemoryRel db bot_token user_id role content now d₁ →
      AddMemoryRel db bot_token user_id role content now d₂ → d₁ = d₂) := by
  constructor
  · rintro limit out₁ out₂ nod ⟨s₁, hp₁, hd₁, ho₁⟩ ⟨s₂, hp₂, hd₂, ho₂⟩
    have h₁ : (s₁.map (fun r => r.created_at)).Nodup := (hp₁.map _).symm.nodup nod
    have hs : s₁ = s₂ :=
      desc_sorted_nodup_eq s₁ s₂ (hp₁.trans hp₂.symm) h₁ hd₁ hd₂
    rw [ho₁, ho₂, hs]
  · rintro role content now d₁ d₂ nod ⟨s₁, hp₁, hd₁, he₁⟩ ⟨s₂, hp₂, hd₂, he₂⟩
    have h₁ : (s₁.map (fun r => r.created_at)).Nodup := (hp₁.map _).symm.nodup nod
    have hs : s₁ = s₂ :=
      desc_sorted_nodup_eq s₁ s₂ (hp₁.trans hp₂.symm) h₁ hd₁ hd₂
    rw [he₁, he₂, hs]

/-- The deterministic embedding of `get_memory` is one of the
executions the relational SQL semantics admits. -/
lemma get_memory_sat_rel (db : DB) (bot_token : String) (user_id : Int) (limit : Nat) :
    GetMemoryRel db bot_token user_id limit (get_memory db bot_token user_id limit) :=
  ⟨sortByCreatedDesc (memory_rows db bot_token user_id),
    List.perm_insertionSort byCreatedDesc _, List.sorted_insertionSort byCreatedDesc _, rfl⟩

/-- The deterministic embedding of `add_memory` is one of the
executions the relational SQL semantics admits. -/
lemma add_memory_sat_rel (db : DB) (bot_token : String) (user_id : Int)
    (role content : String) (now : Nat) :
    AddMemoryRel db bot_token user_id role content now
      (add_memory db bot_token user_id role content now) :=
  ⟨sortByCreatedDesc ((db.remember ++
      [(⟨db.next_mem_id, bot_token, user_id, role, content, now⟩ : MemRow)]).filter
      (fun r => r.bot_token == bot_token && r.user_id == user_id)),
    List.perm_insertionSort byCreatedDesc _, List.sorted_insertionSort byCreatedDesc _, rfl⟩

/-- First row of the distinct-timestamp witness state. -/
def c7w1 : MemRow := ⟨1, "t", 7, "user", "a", 5⟩

/-- Second row of the distinct-timestamp witness state. -/
def c7w2 : MemRow := ⟨2, "t", 7, "assistant", "b", 6⟩

/-- A state whose `("t", 7)` partition has two rows with distinct
`created_at`. -/
def c7wdb : DB := { DB.empty with remember := [c7w1, c7w2], next_mem_id := 3 }

/-- Witness for C7 (amended): on distinct timestamps, two admissible
executions of the `limit = 1` read agree. -/
theorem memory_tie_break_amended_witness :
    ([("assistant", "b")] : List (String × String)) = [("assistant", "b")] :=
  (memory_tie_break_amended c7wdb "t" 7).1 1 [("assistant", "b")] [("assistant", "b")]
    (by decide)
    ⟨[c7w2, c7w1], by decide, by decide, by decide⟩
    ⟨[c7w2, c7w1], by decide, by decide, by decide⟩

/-! ### Claim theorems: bounded memory retention (C1) -/

/-- On strictly ascending timestamps, the `ORDER BY created_at DESC`
sort is exactly list reversal. -/
lemma sort_of_strict_asc (l : List MemRow)
    (h : l.Pairwise (fun a b => a.created_at < b.created_at)) :
    sortByCreatedDesc l = l.reverse := by
  have nodl : (l.map (fun r => r.created_at)).Nodup :=
    List.pairwise_map.mpr (h.imp fun hab => Nat.ne_of_lt hab)
  apply desc_sorted_nodup_eq (sortByCreatedDesc l) l.reverse
  · exact (List.perm_insertionSort _ l).trans l.reverse_perm.symm
  · exact ((List.perm_insertionSort byCreatedDesc l).map (fun r => r.created_at)).symm.nodup nodl
  · exact List.sorted_insertionSort byCreatedDesc l
  · exact List.pairwise_reverse.mpr (h.imp fun hab => Nat.le_of_lt hab)

/-- The rows inserted by a run of `add_memory` calls for one partition:
consecutive surrogate ids from `n`, one row per `(role, content,
timestamp)` message. -/
def mkRows (n : Nat) (t : String) (u : Int) :
    List (String × String × Nat) → List MemRow
  | [] => []
  | m :: ms => ⟨n, t, u, m.1, m.2.1, m.2.2⟩ :: mkRows (n + 1) t u ms

lemma mkRows_length (t : String) (u : Int) :
    ∀ (ms : List (String × String × Nat)) (n : Nat), (mkRows n t u ms).length = ms.length
  | [], _ => rfl
  | _ :: ms, n => by simp [mkRows, mkRows_length t u ms (n + 1)]

lemma mkRows_map_ts (t : String) (u : Int) :
    ∀ (ms : List (String × String × Nat)) (n : Nat),
      (mkRows n t u ms).map (fun r => r.created_at) = ms.map (fun m => m.2.2)
  | [], _ => rfl
  | _ :: ms, n => by simp [mkRows, mkRows_map_ts t u ms (n + 1)]

lemma mkRows_map_rc (t : String) (u : Int) :
    ∀ (ms : List (String × String × Nat)) (n : Nat),
      (mkRows n t u ms).map (fun r => (r.role, r.content)) = ms.map (fun m => (m.1, m.2.1))
  | [], _ => rfl
  | _ :: ms, n => by simp [mkRows, mkRows_map_rc t u ms (n + 1)]

/-- The `remember` table after `add_memory`, with the two let-bindings
of the definition expanded. -/
lemma add_memory_remember (db : DB) (t : String) (u : Int)
    (role content : String) (now : Nat) :
    (add_memory db t u role content now).remember
      = (db.remember ++ [(⟨db.next_mem_id, t, u, role, content, now⟩ : MemRow)]).filter
          (fun r => !(r.bot_token == t && r.user_id == u) ||
            (((sortByCreatedDesc ((db.remember ++
                [(⟨db.next_mem_id, t, u, role, content, now⟩ : MemRow)]).filter
                  (fun r => r.bot_token == t && r.user_id == u))).take 20).map
              (fun r => r.id)).contains r.id) := rfl

/-- Filtering a "deleted unless kept" result back to the partition is
filtering the partition by the keep-set. -/
lemma filter_and_not_or {α : Type} (p k : α → Bool) (l : List α) :
    (l.filter (fun a => !(p a) || k a)).filter p
      = (l.filter p).filter (fun a => k a) := by
  rw [List.filter_filter, List.filter_filter]
  apply List.filter_congr
  intro a _
  cases hp : p a <;> cases hk : k a <;> simp [hp, hk]

/-- One `add_memory` call on a clean strictly-increasing partition
keeps exactly the most recent 20 rows of the partition with the new row
appended. -/
lemma add_memory_partition_step (db : DB) (t : String) (u : Int)
    (role content : String) (now : Nat) (P : List MemRow)
    (hP : memory_rows db t u = P)
    (hIdP : P.Pairwise (fun a b => a.id < b.id))
    (hIdLt : ∀ r ∈ P, r.id < db.next_mem_id)
    (hTs : P.Pairwise (fun a b => a.created_at < b.created_at))
    (hNow : ∀ r ∈ P, r.created_at < now) :
    memory_rows (add_memory db t u role content now) t u
      = lastN 20 (P ++ [(⟨db.next_mem_id, t, u, role, content, now⟩ : MemRow)]) := by
  have hQ : (db.remember ++ [(⟨db.next_mem_id, t, u, role, content, now⟩ : MemRow)]).filter
      (fun r => r.bot_token == t && r.user_id == u)
      = P ++ [(⟨db.next_mem_id, t, u, role, content, now⟩ : MemRow)] := by
    have hP2 : db.remember.filter (fun r => r.bot_token == t && r.user_id == u) = P := hP
    rw [List.filter_append, hP2]
    simp
  have hidQ : (P ++ [(⟨db.next_mem_id, t, u, role, content, now⟩ : MemRow)]).Pairwise
      (fun a b => a.id < b.id) := by
    refine List.pairwise_append.mpr ⟨hIdP, List.pairwise_singleton _ _, ?_⟩
    intro a ha b hb
    rw [List.mem_singleton] at hb
    subst hb
    exact hIdLt a ha
  have htsQ : (P ++ [(⟨db.next_mem_id, t, u, role, content, now⟩ : MemRow)]).Pairwise
      (fun a b => a.created_at < b.created_at) := by
    refine List.pairwise_append.mpr ⟨hTs, List.pairwise_singleton _ _, ?_⟩
    intro a ha b hb
    rw [List.mem_singleton] at hb
    subst hb
    exact hNow a ha
  show (add_memory db t u role content now).remember.filter
      (fun r => r.bot_token == t && r.user_id == u)
    = lastN 20 (P ++ [(⟨db.next_mem_id, t, u, role, content, now⟩ : MemRow)])
  rw [add_memory_remember]
  rw [filter_and_not_or (fun r : MemRow => r.bot_token == t && r.user_id == u)
    (fun r : MemRow => (((sortByCreatedDesc ((db.remember ++
        [(⟨db.next_mem_id, t, u, role, content, now⟩ : MemRow)]).filter
          (fun r2 => r2.bot_token == t && r2.user_id == u))).take 20).map
        (fun r2 => r2.id)).contains r.id)
    (db.remember ++ [(⟨db.next_mem_id, t, u, role, content, now⟩ : MemRow)])]
  rw [hQ]
  rw [sort_of_strict_asc _ htsQ]
  rw [List.take_reverse]
  exact filter_mem_ids_drop _ _ _ (fun x => by simp [List.elem_iff]) hidQ

/-- Folding a strictly-increasing batch of appends over a state whose
partition satisfies the retention invariants leaves the last 20 rows of
the virtual full log. -/
lemma append_all_partition (t : String) (u : Int)
    (msgs : List (String × String × Nat)) :
    ∀ (db : DB) (P : List MemRow),
      memory_rows db t u = P →
      P.Pairwise (fun a b => a.id < b.id) →
      (∀ r ∈ P, r.id < db.next_mem_id) →
      P.Pairwise (fun a b => a.created_at < b.created_at) →
      (∀ r ∈ P, ∀ m ∈ msgs, r.created_at < m.2.2) →
      (msgs.map (fun m => m.2.2)).Pairwise (fun a b => a < b) →
      P.length ≤ 20 →
      memory_rows (append_all db t u msgs) t u
        = lastN 20 (P ++ mkRows db.next_mem_id t u msgs) := by
  induction msgs with
  | nil =>
    intro db P hP _ _ _ _ _ hlen
    rw [show append_all db t u [] = db from rfl, hP,
      show mkRows db.next_mem_id t u [] = [] from rfl, List.append_nil]
    show P = P.drop (P.length - 20)
    rw [show P.length - 20 = 0 from by omega, List.drop_zero]
  | cons m ms ih =>
    intro db P hP hIdP hIdLt hTs hFut hMono hlen
    rw [show append_all db t u (m :: ms)
      = append_all (add_memory db t u m.1 m.2.1 m.2.2) t u ms from rfl]
    have hNow : ∀ r ∈ P, r.created_at < m.2.2 :=
      fun r hr => hFut r hr m (List.mem_cons_self m ms)
    have hstep := add_memory_partition_step db t u m.1 m.2.1 m.2.2 P hP hIdP hIdLt hTs hNow
    have hidQ : (P ++ [(⟨db.next_mem_id, t, u, m.1, m.2.1, m.2.2⟩ : MemRow)]).Pairwise
        (fun a b => a.id < b.id) := by
      refine List.pairwise_append.mpr ⟨hIdP, List.pairwise_singleton _ _, ?_⟩
      intro a ha b hb
      rw [List.mem_singleton] at hb
      subst hb
      exact hIdLt a ha
    have htsQ : (P ++ [(⟨db.next_mem_id, t, u, m.1, m.2.1, m.2.2⟩ : MemRow)]).Pairwise
        (fun a b => a.created_at < b.created_at) := by
      refine List.pairwise_append.mpr ⟨hTs, List.pairwise_singleton _ _, ?_⟩
      intro a ha b hb
      rw [List.mem_singleton] at hb
      subst hb
      exact hNow a ha
    have hmemQ : ∀ r ∈ lastN 20 (P ++ [(⟨db.next_mem_id, t, u, m.1, m.2.1, m.2.2⟩ : MemRow)]),
        r ∈ P ++ [(⟨db.next_mem_id, t, u, m.1, m.2.1, m.2.2⟩ : MemRow)] :=
      fun r hr => List.mem_of_mem_drop hr
    have h1 : (lastN 20 (P ++ [(⟨db.next_mem_id, t, u, m.1, m.2.1, m.2.2⟩ : MemRow)])).Pairwise
        (fun a b => a.id < b.id) :=
      hidQ.sublist (List.drop_sublist _ _)
    have h2 : ∀ r ∈ lastN 20 (P ++ [(⟨db.next_mem_id, t, u, m.1, m.2.1, m.2.2⟩ : MemRow)]),
        r.id < (add_memory db t u m.1 m.2.1 m.2.2).next_mem_id := by
      intro r hr
      rw [show (add_memory db t u m.1 m.2.1 m.2.2).next_mem_id = db.next_mem_id + 1 from rfl]
      rcases List.mem_append.mp (hmemQ r hr) with h | h
      · exact Nat.lt_succ_of_lt (hIdLt r h)
      · rw [List.mem_singleton] at h
        subst h
        exact Nat.lt_succ_self _
    have h3 : (lastN 20 (P ++ [(⟨db.next_mem_id, t, u, m.1, m.2.1, m.2.2⟩ : MemRow)])).Pairwise
        (fun a b => a.created_at < b.created_at) :=
      htsQ.sublist (List.drop_sublist _ _)
    have h4 : ∀ r ∈ lastN 20 (P ++ [(⟨db.next_mem_id, t, u, m.1, m.2.1, m.2.2⟩ : MemRow)]),
        ∀ m' ∈ ms, r.created_at < m'.2.2 := by
      intro r hr m' hm'
      rcases List.mem_append.mp (hmemQ r hr) with h | h
      · exact hFut r h m' (List.mem_cons_of_mem m hm')
      · rw [List.mem_singleton] at h
        subst h
        rw [List.map_cons] at hMono
        exact (List.pairwise_cons.mp hMono).1 _ (List.mem_map.mpr ⟨m', hm', rfl⟩)
    have h5 : (ms.map (fun m => m.2.2)).Pairwise (fun a b => a < b) := by
      rw [List.map_cons] at hMono
      exact (List.pairwise_cons.mp hMono).2
    have h6 : (lastN 20 (P ++ [(⟨db.next_mem_id, t, u, m.1, m.2.1, m.2.2⟩ : MemRow)])).length
        ≤ 20 := by
      rw [length_lastN]
      omega
    have hfin := ih (add_memory db t u m.1 m.2.1 m.2.2)
      (lastN 20 (P ++ [(⟨db.next_mem_id, t, u, m.1, m.2.1, m.2.2⟩ : MemRow)]))
      hstep h1 h2 h3 h4 h5 h6
    rw [hfin]
    rw [show (add_memory db t u m.1 m.2.1 m.2.2).next_mem_id = db.next_mem_id + 1 from rfl]
    rw [lastN_append_lastN]
    rw [show (P ++ [(⟨db.next_mem_id, t, u, m.1, m.2.1, m.2.2⟩ : MemRow)]) ++
          mkRows (db.next_mem_id + 1) t u ms
        = P ++ mkRows db.next_mem_id t u (m :: ms) from by simp [mkRows]]

/-- Claim C1: appending 25 entries (with the strictly increasing
timestamps a monotone store clock assigns) into an empty
`(bot_token, user_id)` partition leaves exactly 20 stored rows, and
`get_memory` with `limit = 20` returns those 20 most recent entries
oldest-first, matching insertion order — the last 20 of the 25
appended messages, in order. -/
theorem memory_retention_window (db : DB) (bot_token : String) (user_id : Int)
    (msgs : List (String × String × Nat))
    (hlen : msgs.length = 25)
    (hempty : memory_rows db bot_token user_id = [])
    (hmono : (msgs.map (fun m => m.2.2)).Pairwise (fun a b => a < b)) :
    (memory_rows (append_all db bot_token user_id msgs) bot_token user_id).length = 20 ∧
    get_memory (append_all db bot_token user_id msgs) bot_token user_id 20
      = (msgs.drop 5).map (fun m => (m.1, m.2.1)) := by
  have hpart := append_all_partition bot_token user_id msgs db [] hempty
    List.Pairwise.nil (by simp) List.Pairwise.nil (by simp) hmono (by simp)
  rw [List.nil_append] at hpart
  have hRlen : (mkRows db.next_mem_id bot_token user_id msgs).length = 25 := by
    rw [mkRows_length, hlen]
  have hlastlen : (lastN 20 (mkRows db.next_mem_id bot_token user_id msgs)).length = 20 := by
    rw [length_lastN, hRlen]
  have hRts : (mkRows db.next_mem_id bot_token user_id msgs).Pairwise
      (fun a b => a.created_at < b.created_at) := by
    apply List.pairwise_map.mp
    rw [mkRows_map_ts]
    exact hmono
  have hts' : (lastN 20 (mkRows db.next_mem_id bot_token user_id msgs)).Pairwise
      (fun a b => a.created_at < b.created_at) :=
    hRts.sublist (List.drop_sublist _ _)
  constructor
  · rw [hpart]
    exact hlastlen
  · show (((sortByCreatedDesc (memory_rows (append_all db bot_token user_id msgs)
        bot_token user_id)).take 20).reverse).map (fun r => (r.role, r.content))
      = (msgs.drop 5).map (fun m => (m.1, m.2.1))
    rw [hpart, sort_of_strict_asc _ hts']
    rw [List.take_of_length_le (by rw [List.length_reverse, hlastlen])]
    rw [List.reverse_reverse]
    rw [show lastN 20 (mkRows db.next_mem_id bot_token user_id msgs)
        = (mkRows db.next_mem_id bot_token user_id msgs).drop 5 from by
      show (mkRows db.next_mem_id bot_token user_id msgs).drop
          ((mkRows db.next_mem_id bot_token user_id msgs).length - 20) = _
      rw [hRlen]]
    rw [List.map_drop, mkRows_map_rc, ← List.map_drop]

/-- The 25 witness messages: one per `i < 25`, with strictly
increasing timestamps `i + 1`. -/
def c1msgs : List (String × String × Nat) :=
  (List.range 25).map (fun i => ("user", "m", i + 1))

/-- Witness for C1: the 25-message run from the empty store. -/
theorem memory_retention_window_witness :
    (memory_rows (append_all DB.empty "t" 1 c1msgs) "t" 1).length = 20 ∧
    get_memory (append_all DB.empty "t" 1 c1msgs) "t" 1 20
      = (c1msgs.drop 5).map (fun m => (m.1, m.2.1)) :=
  memory_retention_window DB.empty "t" 1 c1msgs (by decide) (by decide) (by decide)

end BotFactory
